import Mathlib

/-!
# Verification of the WGUPS routing and dispatch engine (`main.py`)

This file gives a shallow embedding of the core of the WGUPS delivery
program — the `PackageDB` open-addressing hash table, the `Location`
graph with its triangular distance storage and `dijkstra_sp` routine,
and the `Truck` loading (`Truck.load`) and delivery
(`deliver_packages`) logic — and proves or refutes the specification
claims about them.

Modelling conventions:
* Python `datetime` values are represented as rational minutes after
  the day-start (`start_time_date` is time `0`).
* Python `float` distances are represented as rationals.
* Python exceptions (`KeyError`, `IndexError`, `AttributeError`,
  `TypeError`, `ValueError`) are represented by the `PyErr` type and
  `Except`-style results.
* Python object identity on `Package` values is modelled by structural
  equality; theorems that depend on it carry the (always true in the
  program) assumption that package ids are distinct.
-/

deriving instance DecidableEq for Except

/-- Python exception kinds raised by the embedded code paths. -/
inductive PyErr where
  | keyError
  | indexError
  | attributeError
  | typeError
  | valueError
  | zeroDivisionError
  /-- Artifact of the fuel-bounded embedding of the
      `insert`/`__maintain_load_factor` mutual recursion; never reached
      when theorems supply ample fuel. -/
  | fuelExhausted
  deriving DecidableEq, Repr

/-- The fields of `Package` (from `Package.__init__`) that the verified
    code paths read or write.  `dependencies` stores the ids of the
    dependent packages (the Python object references are resolved
    through an explicit environment, see `discover_dependencies`);
    address/city/state/zip/mass fields are never read by the core
    logic modelled here and are omitted.  Times are rational minutes
    after the day start; `special_notes` is the Python string as its
    character sequence (so the source's regex prefix matches become
    computable prefix tests). -/
structure Pkg where
  pkg_id : Nat
  special_notes : List Char
  dependencies : List Nat
  time_available : Option ℚ := none
  load_time : Option ℚ := none
  delivery_time : Option ℚ := none
  destination : Nat := 0
  deriving DecidableEq, Repr

/-- A slot of the `PackageDB.db` Python list.  `vnone` is `None`,
    `vtomb` the string `"tombstone"`, `vpkg` a stored `Package`, and
    `vblock k` the nested list `[None] * k` that
    `__maintain_load_factor` appends with `self.db.append([None] * self.db_size)`
    (Python `append` adds it as a single element). -/
inductive Cell where
  | vnone
  | vtomb
  | vpkg (p : Pkg)
  | vblock (k : Nat)
  deriving DecidableEq, Repr

/-- The `PackageDB` state: the backing Python list `db` and the
    `db_size` field (which the code keeps separately from the actual
    list length).  The source also stores a `load_factor` float; it is
    written by `__maintain_load_factor` but never read anywhere (the
    next call recomputes it from scratch), so it is omitted from the
    state. -/
structure PackageDB where
  db : List Cell
  db_size : Nat
  deriving DecidableEq, Repr

/-- `PackageDB.__init__(number_of_packages)`. -/
def PackageDB.init (number_of_packages : Nat) : PackageDB :=
  { db := List.replicate (number_of_packages * 2) Cell.vnone
    db_size := number_of_packages * 2 }

/-- `PackageDB.__hashfunc`: `(pkg_id - 1) % self.db_size`.  All call
    sites pass `pkg_id + i` with `pkg_id ≥ 1`, so natural subtraction
    agrees with Python. -/
def hashfunc (db_size : Nat) (pkg_id : Nat) : Nat :=
  (pkg_id - 1) % db_size

/-- Python list indexing `l[key]` for a non-negative index: raises
    `IndexError` when the index is out of range. -/
def pyGet (l : List Cell) (key : Nat) : Except PyErr Cell :=
  match l[key]? with
  | some c => .ok c
  | none => .error .indexError

/-- The probe loop of `PackageDB.search` (`for i in range(self.db_size)`),
    with `n` the number of probes still allowed.  A live slot matches when
    `pkg != "tombstone" and pkg.pkg_id == pkg_id`; reading `.pkg_id` of the
    nested `[None]*k` list appended by the growth bug raises
    `AttributeError`. -/
def searchFrom (d : PackageDB) (pkg_id : Nat) : Nat → Nat → Except PyErr Pkg
  | _, 0 => .error .keyError
  | i, n + 1 =>
    match pyGet d.db (hashfunc d.db_size (pkg_id + i)) with
    | .error e => .error e
    | .ok .vnone => .error .keyError
    | .ok .vtomb => searchFrom d pkg_id (i + 1) n
    | .ok (.vpkg p) =>
      if p.pkg_id = pkg_id then .ok p else searchFrom d pkg_id (i + 1) n
    | .ok (.vblock _) => .error .attributeError

/-- `PackageDB.search`. -/
def PackageDB.search (d : PackageDB) (pkg_id : Nat) : Except PyErr Pkg :=
  searchFrom d pkg_id 0 d.db_size

/-- The probe loop of `PackageDB.remove`.  The source's test is
    `pkg != "tombstone" and pkg.id == id`: `Package` has no attribute
    `id` (the field is `pkg_id`), so the moment a live package (or the
    nested growth block) is inspected, Python raises `AttributeError`;
    an empty slot or an exhausted table raises `KeyError`.  No slot is
    ever overwritten and the function never returns normally (even on
    a match there is no `return`, and the trailing `raise KeyError`
    would run). -/
def removeFrom (d : PackageDB) (pkg_id : Nat) : Nat → Nat → Except PyErr Unit
  | _, 0 => .error .keyError
  | i, n + 1 =>
    match pyGet d.db (hashfunc d.db_size (pkg_id + i)) with
    | .error e => .error e
    | .ok .vnone => .error .keyError
    | .ok .vtomb => removeFrom d pkg_id (i + 1) n
    | .ok (.vpkg _) => .error .attributeError
    | .ok (.vblock _) => .error .attributeError

/-- `PackageDB.remove`. -/
def PackageDB.remove (d : PackageDB) (pkg_id : Nat) : Except PyErr Unit :=
  removeFrom d pkg_id 0 d.db_size

/-- `sum(i is not None for i in self.db)`: everything that is not
    `None` counts (live packages, tombstones, and the nested growth
    block alike). -/
def countLive (db : List Cell) : Nat :=
  (db.filter (fun c => c ≠ Cell.vnone)).length

mutual

/-- `PackageDB.__maintain_load_factor`.  Recomputes the load factor
    `sum(i is not None for i in self.db) / self.db_size`; the source's
    rational test `load_factor > .5` is rendered by the equivalent
    integer test `2 * countLive > db_size` (for `db_size > 0` the two
    are equivalent; `db_size = 0` is Python's `ZeroDivisionError`).
    When it exceeds `1/2` the code runs
    `self.db.append([None] * self.db_size)` (adding the whole block as
    ONE element), doubles the `db_size` field, and walks
    `range(len(self.db))` popping every non-`None` entry and
    re-inserting it.  `fuel` bounds the `insert`/`maintain` mutual
    recursion structurally; every theorem below evaluates with ample
    fuel. -/
def maintainLF : Nat → PackageDB → Except PyErr PackageDB
  | 0, _ => .error .fuelExhausted
  | fuel + 1, d =>
    if d.db_size = 0 then .error .zeroDivisionError
    else if 2 * countLive d.db > d.db_size then
      let grown : PackageDB :=
        { d with db := d.db ++ [Cell.vblock d.db_size]
                 db_size := d.db_size * 2 }
      growLoop fuel grown 0 (d.db.length + 1)
    else
      .ok d
termination_by structural fuel => fuel

/-- The rehash loop `for i in range(len(self.db))` inside
    `__maintain_load_factor`: reads `self.db[i]` (which can raise
    `IndexError` because `pop` shrinks the list mid-iteration), pops
    non-`None` entries and re-inserts them; `n` counts the remaining
    iterations of the fixed range. -/
def growLoop : Nat → PackageDB → Nat → Nat → Except PyErr PackageDB
  | 0, _, _, _ => .error .fuelExhausted
  | _ + 1, d, _, 0 => .ok d
  | fuel + 1, d, i, n + 1 =>
    match pyGet d.db i with
    | .error e => .error e
    | .ok .vnone => growLoop fuel d (i + 1) n
    | .ok c =>
      let popped : PackageDB := { d with db := d.db.eraseIdx i }
      match insertCell fuel popped c with
      | .error e => .error e
      | .ok d'' => growLoop fuel d'' (i + 1) n
termination_by structural fuel => fuel

/-- `PackageDB.insert(package_details)` dispatching on the Python type
    of its argument: a `Package` goes through the probe loop; a list
    (the nested growth block) hits `Package(*package_details)` which
    raises `TypeError` (wrong arity / `int(None)`); any other type
    (e.g. the `"tombstone"` string, or `None`) prints a message and
    returns without inserting. -/
def insertCell : Nat → PackageDB → Cell → Except PyErr PackageDB
  | 0, _, _ => .error .fuelExhausted
  | fuel + 1, d, c =>
    match c with
    | .vpkg p => insertPkg fuel d p
    | .vblock _ => .error .typeError
    | .vtomb => .ok d
    | .vnone => .ok d
termination_by structural fuel => fuel

/-- The body of `PackageDB.insert` for a `Package` argument.  The
    `Delayed on flight` / `Wrong address listed` prompts only set
    `time_available` / address fields and are irrelevant to the slot
    logic; the claims below exercise packages whose notes match
    neither pattern, so the prompt oracle is elided.  Then the probe
    loop places the package in the first `None`/tombstone slot and
    calls `__maintain_load_factor`. -/
def insertPkg : Nat → PackageDB → Pkg → Except PyErr PackageDB
  | 0, _, _ => .error .fuelExhausted
  | fuel + 1, d, p => insertProbe fuel d p 0 d.db_size
termination_by structural fuel => fuel

/-- The probe loop `for i in range(self.db_size)` of `PackageDB.insert`;
    `n` counts the probes still allowed by the range, and exhausting it
    is the source's trailing `raise KeyError`. -/
def insertProbe : Nat → PackageDB → Pkg → Nat → Nat → Except PyErr PackageDB
  | 0, _, _, _, _ => .error .fuelExhausted
  | _ + 1, _, _, _, 0 => .error .keyError
  | fuel + 1, d, p, i, n + 1 =>
    let key := hashfunc d.db_size (p.pkg_id + i)
    match pyGet d.db key with
    | .error e => .error e
    | .ok c =>
      if c = .vnone ∨ c = .vtomb then
        maintainLF fuel { d with db := d.db.set key (.vpkg p) }
      else
        insertProbe fuel d p (i + 1) n
termination_by structural fuel => fuel

end

/-- `PackageDB.insert` with a fuel budget for the
    `insert`/`__maintain_load_factor` mutual recursion. -/
def PackageDB.insert (d : PackageDB) (p : Pkg) : Except PyErr PackageDB :=
  insertPkg 1000 d p

/-- A package with id `1` and no special notes. -/
def pkgOne : Pkg := { pkg_id := 1, special_notes := [], dependencies := [] }

/-- A package with id `2` and no special notes. -/
def pkgTwo : Pkg := { pkg_id := 2, special_notes := [], dependencies := [] }

/-- C1.  Store round-trip: the first half holds (after inserting
    package 1 into a fresh `PackageDB(1)`, `search(1)` returns the
    inserted package), but `remove` never "overwrites the matching
    slot with a tombstone and returns normally": its matching test is
    `pkg != "tombstone" and pkg.id == id`, and `Package` defines
    `pkg_id`, not `id`, so the first live slot inspected raises
    `AttributeError`; even on a match it lacks a `return` and would
    fall through to `raise KeyError`.  The claim matches the source's
    own docstring ("bucket's contents are replaced with a tombstone
    when the desired package is found"), so this is a code bug: here
    we evaluate the code at the failing input. -/
theorem remove_after_insert_raises :
    (((PackageDB.init 1).insert pkgOne).bind fun d => d.search 1) = .ok pkgOne ∧
    (((PackageDB.init 1).insert pkgOne).bind fun d => d.remove 1) =
      .error .attributeError := by
  decide

/-- C2.  Load-factor invariant: the growth path is broken.  Starting
    from a fresh `PackageDB(1)` (capacity 2), inserting packages 1 and
    2 drives the live/capacity ratio to 1 > 0.5; `__maintain_load_factor`
    then appends the whole `[None] * db_size` block as a single list
    element (so the table becomes 3 slots while `db_size` is set to 4)
    and pops entries out of `self.db` while re-inserting them, so the
    re-insert probe of package 1 reads index 2 of the now 2-element
    list and raises `IndexError`.  Capacity is not doubled, no rehash
    completes, and the stored parcels are not retrievable — contradicting
    the source's own comment ("Expands table by factor of two to
    accommodate new packages"), so this is a code bug, evaluated here
    at the failing input. -/
theorem insert_growth_crashes :
    (((PackageDB.init 1).insert pkgOne).bind fun d => d.insert pkgTwo) =
      .error .indexError := by
  decide

/-- The location graph: `n` locations with ids `0, …, n-1` (in
    `csv_to_graph` the id is the row index, row 0 the hub).  `rows i j`
    models `Location.distances[j]` of location `i`, i.e. the stored
    lower-triangular distance entries (`j < i`); it is kept as a total
    function, which is faithful for the fully connected graph the
    claims quantify over (every stored row is complete there).
    Distances are rationals standing for the parsed floats. -/
structure LocationGraph where
  n : Nat
  rows : Nat → Nat → ℚ

/-- `Location.get_distance_to`: 0 on the diagonal, the own stored row
    for a lower-indexed location, the peer's row otherwise (exploiting
    the symmetric full-mesh storage). -/
def get_distance_to (g : LocationGraph) (self_id other_id : Nat) : ℚ :=
  if other_id = self_id then 0
  else if other_id < self_id then g.rows self_id other_id
  else g.rows other_id self_id

/-- The per-location mutable path fields `shortest_known_path` and
    `previous_location`, gathered into one state indexed by location
    id. -/
structure PathState where
  sp : Nat → ℚ
  prev : Nat → Option Nat

/-- `sys.maxsize` (the "infinity" seed of `shortest_known_path`). -/
def sysMaxsize : ℚ := 9223372036854775807

/-- The `loc.reset_path()` sweep at the top of `dijkstra_sp`: every
    location of the graph gets `shortest_known_path = sys.maxsize` and
    `previous_location = None`, so the prior state is discarded
    entirely. -/
def reset_all (_prior : PathState) : PathState :=
  { sp := fun _ => sysMaxsize, prev := fun _ => none }

/-- `swap_with_previous(li, j)`. -/
def swap_with_previous (l : List Nat) (j : Nat) : List Nat :=
  let a := l.getD (j - 1) 0
  let b := l.getD j 0
  (l.set (j - 1) b).set j a

/-- The inner loop `for j in range(i, 0, -1)` of
    `sort_by_dist_ascending`, comparing `locations[j-1]` and
    `locations[j]` by their direct distance to the origin and swapping
    when out of order.  The `Nat` argument is the current Python `j`. -/
def sbda_inner (g : LocationGraph) (origin : Nat) : List Nat → Nat → List Nat
  | l, 0 => l
  | l, j + 1 =>
    if get_distance_to g (l.getD j 0) origin > get_distance_to g (l.getD (j + 1) 0) origin
    then sbda_inner g origin (swap_with_previous l (j + 1)) j
    else sbda_inner g origin l j

/-- `sort_by_dist_ascending(locations, origin)`: insertion sort of the
    location ids by their DIRECT `get_distance_to` distance to the
    origin (not by tentative distance), outer loop
    `for i in range(1, len(locations))`. -/
def sort_by_dist_ascending (g : LocationGraph) (l : List Nat) (origin : Nat) : List Nat :=
  (List.range' 1 (l.length - 1)).foldl (fun acc i => sbda_inner g origin acc i) l

/-- One step of the relaxation sweep inside the main loop of
    `dijkstra_sp`: for a still-unvisited location `v`, if the path
    through `current_loc` (`u`) is shorter, update
    `shortest_known_path` and `previous_location` of `v`. -/
def relax_step (g : LocationGraph) (u : Nat) (st : PathState) (v : Nat) : PathState :=
  if st.sp u + get_distance_to g u v < st.sp v then
    { sp := Function.update st.sp v (st.sp u + get_distance_to g u v)
      prev := Function.update st.prev v (some u) }
  else st

/-- The relaxation sweep `for loc in unvisited:` inside the main loop
    of `dijkstra_sp`. -/
def relax_all (g : LocationGraph) (u : Nat) (rest : List Nat) (s : PathState) : PathState :=
  rest.foldl (relax_step g u) s

/-- The `while unvisited:` loop of `dijkstra_sp`: pop the front
    location, stop as soon as it is the destination, otherwise relax
    every remaining unvisited location.  The unvisited list is fixed
    by the single up-front sort — the source never re-sorts it after
    relaxations. -/
def dijkstra_loop (g : LocationGraph) (dest : Nat) : List Nat → PathState → PathState
  | [], s => s
  | u :: rest, s =>
    if u = dest then s else dijkstra_loop g dest rest (relax_all g u rest s)

/-- `dijkstra_sp(g, start_loc_id, dest_id)`: reset every location,
    seed the start at 0, sort the unvisited ids (graph order
    `0, …, n-1`) once by direct distance to the start, then run the
    pop/relax loop.  The prior `PathState` is the leftover state of
    earlier calls, which the reset sweep discards. -/
def dijkstra_sp (g : LocationGraph) (prior : PathState) (start_loc_id dest_id : Nat) : PathState :=
  let s0 := reset_all prior
  let s1 : PathState := { s0 with sp := Function.update s0.sp start_loc_id 0 }
  let unvisited := sort_by_dist_ascending g (List.range g.n) start_loc_id
  dijkstra_loop g dest_id unvisited s1

/-- Length of a path (list of location ids) measured by
    `get_distance_to` over consecutive pairs. -/
def pathLen (g : LocationGraph) : List Nat → ℚ
  | [] => 0
  | [_] => 0
  | a :: b :: rest => get_distance_to g a b + pathLen g (b :: rest)

/-- A 4-location fully connected symmetric graph (stored, like the
    source's CSV, as lower-triangular rows): d(0,1)=1, d(0,2)=100,
    d(0,3)=50, d(1,2)=1, d(1,3)=60, d(2,3)=1.  The true shortest path
    from 0 to 3 is 0→1→2→3 of length 3, but the direct edges 0–3 and
    0–2 are long. -/
def cg : LocationGraph where
  n := 4
  rows := fun i j =>
    match i, j with
    | 1, 0 => 1
    | 2, 0 => 100
    | 2, 1 => 1
    | 3, 0 => 50
    | 3, 1 => 60
    | 3, 2 => 1
    | _, _ => 0

/-- A fresh path state (all `sys.maxsize` / `None`), as left by
    `Location.__init__`. -/
def initPS : PathState :=
  { sp := fun _ => sysMaxsize, prev := fun _ => none }

/-- C3, counterexample.  On the graph `cg`, `dijkstra_sp` from 0 to 3
    leaves `shortest_known_path 3 = 50` (the direct edge), yet the
    path 0→1→2→3 has length 3 < 50, so the result is NOT the length
    of a true shortest path.  The cause: the unvisited working set is
    sorted once by DIRECT edge distance to the start and never
    re-sorted by tentative distance, so node 3 (direct distance 50) is
    popped — and the loop stopped — before node 2 (direct distance
    100), whose relaxation would have delivered the short path. -/
theorem dijkstra_sp_not_shortest :
    (dijkstra_sp cg initPS 0 3).sp 3 = 50 ∧
    pathLen cg [0, 1, 2, 3] = 3 ∧
    ([0, 1, 2, 3] : List Nat).head? = some 0 ∧
    ([0, 1, 2, 3] : List Nat).getLast? = some 3 ∧
    (∀ v ∈ ([0, 1, 2, 3] : List Nat), v < cg.n) ∧
    (3 : ℚ) < 50 := by
  refine ⟨?_, ?_, rfl, rfl, by decide, by norm_num⟩
  · norm_num [dijkstra_sp, dijkstra_loop, relax_all, relax_step, reset_all,
      sort_by_dist_ascending, sbda_inner, swap_with_previous, get_distance_to, cg,
      initPS, sysMaxsize, List.range_succ, List.range', Function.update]
  · norm_num [pathLen, get_distance_to, cg]

/-- C10.  `dijkstra_sp` begins by calling `reset_path()` on every
    location of the graph, overwriting `shortest_known_path` with
    `sys.maxsize` and `previous_location` with `None`; consequently the
    whole result (both fields for every location) is a function of the
    graph, start and destination only, and two calls with the same
    arguments agree no matter what per-location state earlier calls
    left behind. -/
theorem dijkstra_sp_reset_determinism (g : LocationGraph) (prior₁ prior₂ : PathState)
    (start dest : Nat) :
    dijkstra_sp g prior₁ start dest = dijkstra_sp g prior₂ start dest := rfl

/-- Edge weights are nonnegative whenever the stored triangular rows
    are. -/
lemma get_distance_to_nonneg (g : LocationGraph) (hw : ∀ i j, 0 ≤ g.rows i j) (i j : Nat) :
    0 ≤ get_distance_to g i j := by
  unfold get_distance_to
  split
  · exact le_rfl
  · split
    · exact hw i j
    · exact hw j i

lemma getD_mem_or_eq_zero (l : List Nat) (k : Nat) : l.getD k 0 ∈ l ∨ l.getD k 0 = 0 := by
  rcases h : l[k]? with _ | y
  · right; simp [List.getD, h]
  · left; simpa [List.getD, h] using List.getElem?_mem h

lemma mem_swap_with_previous (l : List Nat) (j : Nat) (x : Nat)
    (hx : x ∈ swap_with_previous l j) : x ∈ l ∨ x = 0 := by
  unfold swap_with_previous at hx
  rcases List.mem_or_eq_of_mem_set hx with hx' | rfl
  · rcases List.mem_or_eq_of_mem_set hx' with hx'' | rfl
    · exact Or.inl hx''
    · exact getD_mem_or_eq_zero l j
  · exact getD_mem_or_eq_zero l (j - 1)

lemma mem_sbda_inner (g : LocationGraph) (origin : Nat) (j : Nat) :
    ∀ (l : List Nat) (x : Nat), x ∈ sbda_inner g origin l j → x ∈ l ∨ x = 0 := by
  induction j with
  | zero => intro l x hx; exact Or.inl hx
  | succ j ih =>
    intro l x hx
    simp only [sbda_inner] at hx
    split at hx
    · rcases ih _ x hx with h | h
      · exact mem_swap_with_previous l (j + 1) x h
      · exact Or.inr h
    · exact ih _ x hx

lemma mem_sbda_foldl (g : LocationGraph) (origin : Nat) (is : List Nat) :
    ∀ (l : List Nat) (x : Nat),
      x ∈ is.foldl (fun acc i => sbda_inner g origin acc i) l → x ∈ l ∨ x = 0 := by
  induction is with
  | nil => intro l x hx; exact Or.inl hx
  | cons i is ih =>
    intro l x hx
    simp only [List.foldl_cons] at hx
    rcases ih _ x hx with h | h
    · exact mem_sbda_inner g origin i l x h
    · exact Or.inr h

lemma mem_sort_by_dist_ascending (g : LocationGraph) (l : List Nat) (origin : Nat) (x : Nat)
    (hx : x ∈ sort_by_dist_ascending g l origin) : x ∈ l ∨ x = 0 :=
  mem_sbda_foldl g origin _ l x hx

lemma pathLen_append_last (g : LocationGraph) (v : Nat) :
    ∀ (p : List Nat) (u : Nat), p.getLast? = some u →
      pathLen g (p ++ [v]) = pathLen g p + get_distance_to g u v := by
  intro p
  induction p with
  | nil => intro u h; simp at h
  | cons a p ih =>
    intro u h
    cases p with
    | nil =>
      simp [List.getLast?] at h
      subst h
      simp [pathLen]
    | cons b rest =>
      have h' : (b :: rest).getLast? = some u := by
        simpa [List.getLast?_cons_cons] using h
      calc pathLen g ((a :: b :: rest) ++ [v])
          = get_distance_to g a b + pathLen g ((b :: rest) ++ [v]) := rfl
        _ = get_distance_to g a b + (pathLen g (b :: rest) + get_distance_to g u v) := by
            rw [ih u h']
        _ = pathLen g (a :: b :: rest) + get_distance_to g u v := by
            simp only [pathLen]; ring

/-- The loop invariant of `dijkstra_sp`: every `shortest_known_path`
    value is either still the `sys.maxsize` seed or the length of an
    actual path of in-graph locations from the start to that
    location. -/
def pathInv (g : LocationGraph) (start : Nat) (s : PathState) : Prop :=
  ∀ v, s.sp v ≤ sysMaxsize ∧
    (s.sp v = sysMaxsize ∨
      ∃ p : List Nat, p.head? = some start ∧ p.getLast? = some v ∧
        (∀ x ∈ p, x < g.n) ∧ pathLen g p = s.sp v)

lemma pathInv_relax_step (g : LocationGraph) (start u v : Nat) (s : PathState)
    (hw : ∀ i j, 0 ≤ g.rows i j) (hv : v < g.n) (hs : pathInv g start s) :
    pathInv g start (relax_step g u s v) := by
  intro w
  unfold relax_step
  by_cases hlt : s.sp u + get_distance_to g u v < s.sp v
  · rw [if_pos hlt]
    rcases eq_or_ne w v with rfl | hwv
    · refine ⟨?_, ?_⟩
      · simp only [Function.update_same]
        exact le_of_lt (lt_of_lt_of_le hlt (hs w).1)
      · simp only [Function.update_same]
        rcases (hs u).2 with hMu | ⟨p, hh, hl, hval, hlen⟩
        · exfalso
          have hd := get_distance_to_nonneg g hw u w
          have h1 := (hs w).1
          rw [hMu] at hlt
          linarith
        · right
          refine ⟨p ++ [w], ?_, ?_, ?_, ?_⟩
          · rcases p with _ | ⟨a, p⟩
            · simp at hh
            · simpa using hh
          · exact List.getLast?_concat _
          · intro x hx
            rcases List.mem_append.mp hx with h | h
            · exact hval x h
            · simp at h; subst h; exact hv
          · rw [pathLen_append_last g w p u hl, hlen]
    · refine ⟨?_, ?_⟩
      · simp only [Function.update_noteq hwv]
        exact (hs w).1
      · simp only [Function.update_noteq hwv]
        exact (hs w).2
  · rw [if_neg hlt]
    exact hs w

lemma pathInv_relax_all (g : LocationGraph) (start u : Nat) (rest : List Nat)
    (hw : ∀ i j, 0 ≤ g.rows i j) :
    ∀ (s : PathState), (∀ v ∈ rest, v < g.n) → pathInv g start s →
      pathInv g start (relax_all g u rest s) := by
  induction rest with
  | nil => intro s _ hs; exact hs
  | cons v rest ih =>
    intro s hrest hs
    simp only [relax_all, List.foldl_cons]
    exact ih (relax_step g u s v)
      (fun x hx => hrest x (List.mem_cons_of_mem _ hx))
      (pathInv_relax_step g start u v s hw (hrest v (List.mem_cons_self _ _)) hs)

lemma pathInv_dijkstra_loop (g : LocationGraph) (start dest : Nat) (l : List Nat)
    (hw : ∀ i j, 0 ≤ g.rows i j) :
    ∀ (s : PathState), (∀ v ∈ l, v < g.n) → pathInv g start s →
      pathInv g start (dijkstra_loop g dest l s) := by
  induction l with
  | nil => intro s _ hs; simpa [dijkstra_loop] using hs
  | cons u rest ih =>
    intro s hl hs
    simp only [dijkstra_loop]
    split
    · exact hs
    · exact ih (relax_all g u rest s)
        (fun v hv => hl v (List.mem_cons_of_mem _ hv))
        (pathInv_relax_all g start u rest hw s
          (fun v hv => hl v (List.mem_cons_of_mem _ hv)) hs)

lemma pathInv_init (g : LocationGraph) (start : Nat) (hstart : start < g.n) :
    pathInv g start
      { sp := Function.update (fun _ => sysMaxsize) start 0, prev := fun _ => none } := by
  intro w
  by_cases hws : w = start
  · subst hws
    refine ⟨?_, Or.inr ⟨[w], rfl, rfl, ?_, ?_⟩⟩
    · simp only [Function.update_same]
      norm_num [sysMaxsize]
    · intro x hx; simp at hx; subst hx; exact hstart
    · simp [pathLen, Function.update_same]
  · refine ⟨?_, Or.inl ?_⟩ <;> simp [Function.update_noteq hws]

/-- C3, amended.  `dijkstra_sp` does not generally compute shortest
    paths (see `dijkstra_sp_not_shortest`): the unvisited working set
    is sorted once by direct edge distance to the start and processed
    in that fixed order, stopping when the destination is popped.
    What does hold: whenever the destination's final
    `shortest_known_path` is below the `sys.maxsize` seed, it is the
    length of some actual start-to-destination path through graph
    locations — an upper bound on (but not necessarily equal to) the
    true shortest distance. -/
theorem dijkstra_sp_computes_some_path_length (g : LocationGraph) (prior : PathState)
    (start dest : Nat) (hstart : start < g.n) (hw : ∀ i j, 0 ≤ g.rows i j)
    (hres : (dijkstra_sp g prior start dest).sp dest ≠ sysMaxsize) :
    ∃ p : List Nat, p.head? = some start ∧ p.getLast? = some dest ∧
      (∀ v ∈ p, v < g.n) ∧ pathLen g p = (dijkstra_sp g prior start dest).sp dest := by
  have hsorted : ∀ x ∈ sort_by_dist_ascending g (List.range g.n) start, x < g.n := by
    intro x hx
    rcases mem_sort_by_dist_ascending g (List.range g.n) start x hx with h | h
    · exact List.mem_range.mp h
    · subst h; exact Nat.lt_of_le_of_lt (Nat.zero_le start) hstart
  have hinv := pathInv_dijkstra_loop g start dest
    (sort_by_dist_ascending g (List.range g.n) start) hw
    { sp := Function.update (fun _ => sysMaxsize) start 0, prev := fun _ => none }
    hsorted (pathInv_init g start hstart)
  simp only [dijkstra_sp, reset_all] at hres ⊢
  rcases (hinv dest).2 with h | h
  · exact absurd h hres
  · exact h

/-- Witness for `dijkstra_sp_computes_some_path_length` at the
    concrete graph `cg`, start 0, destination 3 (where the computed
    value is 50). -/
theorem dijkstra_sp_computes_some_path_length_witness :
    ((0 < cg.n) ∧ (∀ i j, 0 ≤ cg.rows i j) ∧
      (dijkstra_sp cg initPS 0 3).sp 3 ≠ sysMaxsize) ∧
    ∃ p : List Nat, p.head? = some 0 ∧ p.getLast? = some 3 ∧
      (∀ v ∈ p, v < cg.n) ∧ pathLen cg p = (dijkstra_sp cg initPS 0 3).sp 3 := by
  have h1 : (0 : Nat) < cg.n := by decide
  have h2 : ∀ i j, 0 ≤ cg.rows i j := by
    intro i j
    dsimp only [cg]
    split <;> norm_num
  have h3 : (dijkstra_sp cg initPS 0 3).sp 3 ≠ sysMaxsize := by
    norm_num [dijkstra_sp, dijkstra_loop, relax_all, relax_step, reset_all,
      sort_by_dist_ascending, sbda_inner, swap_with_previous, get_distance_to, cg,
      initPS, sysMaxsize, List.range_succ, List.range', Function.update]
  exact ⟨⟨h1, h2, h3⟩, dijkstra_sp_computes_some_path_length cg initPS 0 3 h1 h2 h3⟩

/-- The `Truck` state: identifier, average speed (mph), capacity,
    accumulated mileage, dispatch delay (minutes), the loaded
    `delivery_list`, and the current location's id.  The `db` field of
    the source's `Truck` is only ever passed (unused) to
    `discover_dependencies`, so it is replaced by the explicit
    dependency environment `env` below. -/
structure Truck where
  truck_id : Nat
  avg_speed : ℚ
  capacity : Nat
  mileage : ℚ
  dispatch_delay : ℚ
  delivery_list : List Pkg
  location : Nat
  deriving Repr

/-- `Truck.current_time`, in minutes after `start_time_date`:
    `timedelta(hours=mileage/avg_speed, minutes=dispatch_delay)`
    becomes `mileage / avg_speed * 60 + dispatch_delay`.  (Python
    raises `ZeroDivisionError` for `avg_speed = 0`; theorems carry
    `0 < avg_speed`, true of every constructed truck.) -/
def current_time (t : Truck) : ℚ :=
  t.mileage / t.avg_speed * 60 + t.dispatch_delay

/-- `Truck.__load_pkg` minus the list append: stamps the package's
    load time with the truck's current clock. -/
def load_pkg_stamp (t : Truck) (p : Pkg) : Pkg :=
  { p with load_time := some (current_time t) }

/-- `Truck.deliver` minus the console output: stamps the package's
    delivery time with the truck's current clock. -/
def deliver_stamp (t : Truck) (p : Pkg) : Pkg :=
  { p with delivery_time := some (current_time t) }

/-- `discover_dependencies(pkg, pkg_db, transitive_dependencies)`:
    accumulate the package, then recurse into each dependency (resolved
    through `env`, which models the Python object references; the
    `pkg_db` parameter of the source is never read by its body).  The
    recursion is fuel-bounded; the Python original terminates because
    the visited list grows, and all theorems supply sufficient fuel. -/
def discover_dependencies (env : Nat → Pkg) : Nat → Pkg → List Pkg → List Pkg
  | 0, _, acc => acc
  | fuel + 1, pkg, acc =>
    if pkg ∈ acc then acc
    else
      pkg.dependencies.foldl (fun a did => discover_dependencies env fuel (env did) a)
        (acc ++ [pkg])
termination_by structural fuel => fuel

/-- `re.match('Can only be on truck', note)` (prefix match). -/
def p1_match (note : List Char) : Bool := "Can only be on truck".toList.isPrefixOf note

/-- `re.match('Delayed on flight', note)` (prefix match). -/
def p2_match (note : List Char) : Bool := "Delayed on flight".toList.isPrefixOf note

/-- `re.match('Wrong address listed', note)` (prefix match). -/
def p3_match (note : List Char) : Bool := "Wrong address listed".toList.isPrefixOf note

/-- `int(note[len(note) - 1:])`: the note's last character parsed as a
    number; `none` models Python's `ValueError` for a non-digit (or for
    the empty slice). -/
def lastCharTid (note : List Char) : Option Nat :=
  note.getLast?.bind fun c =>
    if '0' ≤ c ∧ c ≤ '9' then some (c.toNat - '0'.toNat) else none

/-- The mutable state of one `Truck.load` cycle: the truck's
    `delivery_list` (`dl`), the remaining pending manifest, the
    per-cycle `counter`, and the deferred `next_load` buffer. -/
structure LoadState where
  dl : List Pkg
  manif : List Pkg
  counter : Nat
  next_load : List Pkg
  deriving Repr

/-- Stamp a load time (the timestamp half of `Truck.__load_pkg`); `ct`
    is the truck's clock, constant during a load cycle because loading
    never changes mileage. -/
def stamp (ct : ℚ) (p : Pkg) : Pkg := { p with load_time := some ct }

/-- The `for pkg in transitive_dependencies:` loop of the
    dependency-group branch of `Truck.load`: load each group member,
    and remove members other than the triggering package from the
    manifest — raising `ValueError` (as Python `list.remove` does) if
    such a member is not in the manifest. -/
def loadGroup (ct : ℚ) (current : Pkg) : List Pkg → LoadState → LoadState × Option PyErr
  | [], s => (s, none)
  | p :: rest, s =>
    let s1 : LoadState := { s with dl := s.dl ++ [stamp ct p] }
    if p = current then
      loadGroup ct current rest { s1 with counter := s1.counter + 1 }
    else if p ∈ s1.manif then
      loadGroup ct current rest
        { s1 with manif := s1.manif.erase p, counter := s1.counter + 1 }
    else
      (s1, some .valueError)

/-- One iteration of the `while` loop of `Truck.load`, after the
    current package has been popped off the front of the manifest
    (`s.manif` is already the rest): the branch ladder on special
    notes and dependencies.  A package with a nonempty note matching
    none of the patterns and without dependencies falls through every
    branch and is silently dropped, exactly as in the source. -/
def loadIter (env : Nat → Pkg) (depFuel : Nat) (tid cap : Nat) (ct : ℚ) (load_cap : Nat)
    (current : Pkg) (s : LoadState) : LoadState × Option PyErr :=
  if current.special_notes ≠ [] ∨ current.dependencies ≠ [] then
    if p1_match current.special_notes then
      match lastCharTid current.special_notes with
      | none => (s, some .valueError)
      | some tnote =>
        if tid = tnote then
          ({ s with dl := s.dl ++ [stamp ct current], counter := s.counter + 1 }, none)
        else
          ({ s with next_load := s.next_load ++ [current] }, none)
    else if p2_match current.special_notes ∨ p3_match current.special_notes then
      match current.time_available with
      | none => (s, some .typeError)
      | some ta =>
        if ta ≤ ct then
          ({ s with dl := s.dl ++ [stamp ct current], counter := s.counter + 1 }, none)
        else
          ({ s with next_load := s.next_load ++ [current] }, none)
    else if current.dependencies ≠ [] then
      if s.dl.length + (discover_dependencies env depFuel current []).length ≤ cap ∧
          s.counter + (discover_dependencies env depFuel current []).length < load_cap then
        loadGroup ct current (discover_dependencies env depFuel current []) s
      else
        ({ s with next_load := s.next_load ++ discover_dependencies env depFuel current [] },
          none)
    else
      (s, none)
  else
    ({ s with dl := s.dl ++ [stamp ct current], counter := s.counter + 1 }, none)

lemma loadGroup_manif_length (ct : ℚ) (current : Pkg) (group : List Pkg) :
    ∀ s : LoadState, ((loadGroup ct current group s).1).manif.length ≤ s.manif.length := by
  induction group with
  | nil => intro s; exact le_rfl
  | cons p rest ih =>
    intro s
    simp only [loadGroup]
    split
    · exact ih _
    · split
      · exact le_trans (ih _) (List.Sublist.length_le (List.erase_sublist _ _))
      · exact le_rfl

lemma loadIter_manif_length (env : Nat → Pkg) (depFuel : Nat) (tid cap : Nat) (ct : ℚ)
    (load_cap : Nat) (current : Pkg) (s : LoadState) :
    ((loadIter env depFuel tid cap ct load_cap current s).1).manif.length ≤ s.manif.length := by
  unfold loadIter
  split
  · split
    · split
      · exact le_rfl
      · split <;> exact le_rfl
    · split
      · split
        · exact le_rfl
        · split <;> exact le_rfl
      · split
        · split
          · exact loadGroup_manif_length ct current _ s
          · exact le_rfl
        · exact le_rfl
  · exact le_rfl

/-- The `while (len(self.delivery_list) < self.capacity) and manif and
    counter < load_cap:` loop of `Truck.load`, fuelled by the number
    of packages in the pending manifest: each iteration pops at least
    one package off the manifest (`loadIter_manif_length`), so
    `s.manif.length` is always sufficient fuel and the fuel-exhausted
    case coincides with the empty-manifest exit.  A `ValueError`
    raised by the dependency-group branch aborts the loop (the
    exception propagates out of `load`, skipping the restore step). -/
def loadLoopF (env : Nat → Pkg) (depFuel : Nat) (tid cap : Nat) (ct : ℚ) (load_cap : Nat) :
    Nat → LoadState → LoadState × Option PyErr
  | 0, s => (s, none)
  | fuel + 1, s =>
    if s.dl.length < cap ∧ s.counter < load_cap then
      match s.manif with
      | [] => (s, none)
      | current :: rest =>
        match loadIter env depFuel tid cap ct load_cap current { s with manif := rest } with
        | (s', none) => loadLoopF env depFuel tid cap ct load_cap fuel s'
        | (s', some e) => (s', some e)
    else (s, none)
termination_by structural fuel => fuel

/-- The loading loop at its exact fuel. -/
def loadLoop (env : Nat → Pkg) (depFuel : Nat) (tid cap : Nat) (ct : ℚ) (load_cap : Nat)
    (s : LoadState) : LoadState × Option PyErr :=
  loadLoopF env depFuel tid cap ct load_cap s.manif.length s

/-- The end-of-cycle restore
    `for pkg in next_load: manif.insert(0, pkg)`: each deferred
    package is prepended, so the buffer ends up reversed at the front
    of the manifest. -/
def restoreFront (next_load manif : List Pkg) : List Pkg :=
  next_load.foldl (fun m p => p :: m) manif

/-- `Truck.load(manif, load_cap)`: run the loading loop from the
    truck's current state and then restore the deferred buffer to the
    front of the manifest (unless a `ValueError` aborted the cycle, in
    which case the manifest is left as the loop left it).  Returns the
    updated truck, the new manifest, and the propagated exception if
    any.  `env` resolves dependency ids to packages (the Python object
    graph), `depFuel` bounds `discover_dependencies`, and `load_cap`
    is the source's optional argument (default `sys.maxsize`). -/
def Truck.load (env : Nat → Pkg) (depFuel : Nat) (t : Truck) (manif : List Pkg)
    (load_cap : Nat) : Truck × List Pkg × Option PyErr :=
  match loadLoop env depFuel t.truck_id t.capacity (current_time t) load_cap
      { dl := t.delivery_list, manif := manif, counter := 0, next_load := [] } with
  | (s, none) => ({ t with delivery_list := s.dl }, restoreFront s.next_load s.manif, none)
  | (s, some e) => ({ t with delivery_list := s.dl }, s.manif, some e)

/-- The destination-collection loop at the top of `deliver_packages`:
    first-seen order, duplicates skipped. -/
def collectDest : List Pkg → List Nat → List Nat
  | [], acc => acc
  | p :: rest, acc =>
    collectDest rest (if p.destination ∈ acc then acc else acc ++ [p.destination])

/-- The `for destination in destinations: dijkstra_sp(...)` sweep: the
    calls run sequentially on the shared per-location state, and since
    each call starts with a full reset, the state surviving the sweep
    is that of the LAST call. -/
def runAll (g : LocationGraph) (src : Nat) : List Nat → PathState → PathState
  | [], st => st
  | d :: ds, st => runAll g src ds (dijkstra_sp g st src d)

/-- The `while destinations:` loop of `deliver_packages`, fuelled by
    the initial number of destinations (each iteration pops exactly
    one, so `destinations.length` is exactly enough fuel): recompute
    shortest paths toward every remaining destination, sort them by
    the surviving `shortest_known_path` values (Python's stable
    `list.sort`, rendered by the stable `List.mergeSort`), travel to
    the front one, and drop the packages delivered there. -/
def deliverLoopF (g : LocationGraph) : Nat → Truck → List Nat → PathState → Truck × PathState
  | 0, t, _, st => (t, st)
  | fuel + 1, t, dests, st =>
    match dests with
    | [] => (t, st)
    | _ :: _ =>
      let stR := runAll g t.location dests st
      match dests.mergeSort (fun a b => decide (stR.sp a ≤ stR.sp b)) with
      | [] => (t, stR)
      | d :: rest =>
        deliverLoopF g fuel
          { t with location := d
                   mileage := t.mileage + stR.sp d
                   delivery_list := t.delivery_list.filter (fun p => p.destination ≠ d) }
          rest stR

/-- `deliver_packages(t, g)`: run the delivery loop over the distinct
    destinations of the loaded packages, then the homing step — a
    final `dijkstra_sp` back to the hub `g[0]` (location id 0), moving
    the truck there and adding the return-leg distance to its
    mileage.  The delivered packages' delivery-time stamping
    (`Truck.deliver`) mutates store-owned objects and is modelled
    separately by `deliver_stamp`. -/
def deliver_packages (g : LocationGraph) (t : Truck) (st : PathState) : Truck × PathState :=
  let res := deliverLoopF g (collectDest t.delivery_list []).length t
    (collectDest t.delivery_list []) st
  let stH := dijkstra_sp g res.2 res.1.location 0
  ({ res.1 with location := 0, mileage := res.1.mileage + stH.sp 0 }, stH)

/-- The console classification of `Package.status`:  `noOutput` is the
    fall-through case in which the source's `if/elif` ladder prints
    nothing (unreachable while load/delivery times respect the
    load-before-delivery invariant). -/
inductive PkgStatus where
  | atHub
  | delivered
  | enRoute
  | noOutput
  deriving DecidableEq, Repr

/-- `Package.status(local_time)`.  The first condition is
    `(not (self.delivery_time or self.load_time)) or (local_time < self.load_time)`:
    when the first disjunct is false but `load_time` is `None` (i.e.
    only a delivery time is set), Python compares a datetime against
    `None` and raises `TypeError`. -/
def Pkg.status (p : Pkg) (local_time : ℚ) : Except PyErr PkgStatus :=
  if ¬(p.delivery_time.isSome ∨ p.load_time.isSome) then .ok .atHub
  else
    match p.load_time with
    | none => .error .typeError
    | some lt =>
      if local_time < lt then .ok .atHub
      else
        match p.delivery_time with
        | some dt =>
          if local_time ≥ dt then .ok .delivered
          else if local_time ≥ lt then .ok .enRoute
          else .ok .noOutput
        | none =>
          if local_time ≥ lt then .ok .enRoute
          else .ok .noOutput

/-- `sys.maxsize`, the default `load_cap` of `Truck.load`, as a
    natural number. -/
def sysMaxsizeNat : Nat := 9223372036854775807

/-- Truck 1 as constructed in `main`: id 1, default speed 18,
    capacity 16, mileage 0, no dispatch delay, starting at the hub. -/
def truckOne : Truck :=
  { truck_id := 1, avg_speed := 18, capacity := 16, mileage := 0, dispatch_delay := 0
    delivery_list := [], location := 0 }

/-- A package restricted to truck 2 (id 1). -/
def pkgT2a : Pkg :=
  { pkg_id := 1, special_notes := "Can only be on truck 2".toList, dependencies := [] }

/-- A package restricted to truck 2 (id 2). -/
def pkgT2b : Pkg :=
  { pkg_id := 2, special_notes := "Can only be on truck 2".toList, dependencies := [] }

/-- C4, counterexample.  Truck 1 loads from the manifest
    `[pkgT2a, pkgT2b]`, both packages restricted to truck 2: both are
    deferred (in this encounter order), but the end-of-cycle restore
    `for pkg in next_load: manif.insert(0, pkg)` prepends them one by
    one, so the manifest ends as `[pkgT2b, pkgT2a]` — the REVERSE of
    the encounter order, falsifying "the deferred parcels keeping the
    same relative order in which they were encountered".  (Nothing is
    loaded, dropped or duplicated here; the reversal alone refutes the
    claim.) -/
theorem load_defers_in_reversed_order :
    (Truck.load (fun _ => pkgT2a) 9 truckOne [pkgT2a, pkgT2b] sysMaxsizeNat).2.1 =
      [pkgT2b, pkgT2a] ∧
    (Truck.load (fun _ => pkgT2a) 9 truckOne [pkgT2a, pkgT2b] sysMaxsizeNat).1.delivery_list
      = [] ∧
    (Truck.load (fun _ => pkgT2a) 9 truckOne [pkgT2a, pkgT2b] sysMaxsizeNat).2.2 = none ∧
    [pkgT2b, pkgT2a] ≠ [pkgT2a, pkgT2b] := by decide

/-- A package (id 1) that must ship with package 2. -/
def pkgMdepA : Pkg :=
  { pkg_id := 1, special_notes := "Must be delivered with 2".toList, dependencies := [2] }

/-- A package (id 2) that must ship with package 1 AND is restricted
    to truck 1 (such a link arises because `link_dependencies` writes
    the dependency into BOTH packages when package 1 names package 2,
    regardless of package 2's own note). -/
def pkgTr1B : Pkg :=
  { pkg_id := 2, special_notes := "Can only be on truck 1".toList, dependencies := [1] }

/-- The dependency environment for `pkgMdepA`/`pkgTr1B`. -/
def envAB : Nat → Pkg := fun i => if i = 1 then pkgMdepA else pkgTr1B

/-- Truck 1 with capacity 1. -/
def truckCap1 : Truck :=
  { truck_id := 1, avg_speed := 18, capacity := 1, mileage := 0, dispatch_delay := 0
    delivery_list := [], location := 0 }

/-- C5, counterexample.  Packages 1 and 2 are mutually dependent (one
    transitive group `[1, 2]`, resolved during the cycle when package
    1 is considered), but package 2 also bears "Can only be on truck
    1".  On truck 1 with capacity 1 the group does not fit, so package
    1 is deferred with the whole group — yet when package 2 is popped
    next, the branch ladder tests the truck-restriction pattern FIRST,
    bypassing the group logic, and loads package 2 alone.  One member
    of a resolved dependency group is loaded and the other is not:
    group atomicity is violated. -/
theorem load_splits_dependency_group :
    (discover_dependencies envAB 9 pkgMdepA []).map Pkg.pkg_id = [1, 2] ∧
    ((Truck.load envAB 9 truckCap1 [pkgMdepA, pkgTr1B] sysMaxsizeNat).1.delivery_list).map
      Pkg.pkg_id = [2] ∧
    (1 : Nat) ∉
      ((Truck.load envAB 9 truckCap1 [pkgMdepA, pkgTr1B] sysMaxsizeNat).1.delivery_list).map
        Pkg.pkg_id ∧
    (Truck.load envAB 9 truckCap1 [pkgMdepA, pkgTr1B] sysMaxsizeNat).2.2 = none := by
  decide

lemma loadGroup_dl_length (ct : ℚ) (current : Pkg) (group : List Pkg) :
    ∀ s : LoadState, ((loadGroup ct current group s).1).dl.length ≤ s.dl.length + group.length := by
  induction group with
  | nil => intro s; simp [loadGroup]
  | cons p rest ih =>
    intro s
    simp only [loadGroup, List.length_cons]
    split
    · exact le_trans (ih _)
        (by simp only [List.length_append, List.length_cons, List.length_nil]; omega)
    · split
      · exact le_trans (ih _)
          (by simp only [List.length_append, List.length_cons, List.length_nil]; omega)
      · simp only [List.length_append, List.length_cons, List.length_nil]
        omega

lemma loadIter_dl_le_cap (env : Nat → Pkg) (depFuel : Nat) (tid cap : Nat) (ct : ℚ)
    (load_cap : Nat) (current : Pkg) (s : LoadState) (h : s.dl.length < cap) :
    ((loadIter env depFuel tid cap ct load_cap current s).1).dl.length ≤ cap := by
  have hg := loadGroup_dl_length ct current (discover_dependencies env depFuel current []) s
  unfold loadIter
  split
  · split
    · split
      · exact le_of_lt h
      · split
        · simp only [List.length_append, List.length_cons, List.length_nil]
          omega
        · exact le_of_lt h
    · split
      · split
        · exact le_of_lt h
        · split
          · simp only [List.length_append, List.length_cons, List.length_nil]
            omega
          · exact le_of_lt h
      · split
        · split
          · rename_i hfit
            exact le_trans hg hfit.1
          · exact le_of_lt h
        · exact le_of_lt h
  · simp only [List.length_append, List.length_cons, List.length_nil]
    omega

lemma loadLoopF_dl_le_cap (env : Nat → Pkg) (depFuel : Nat) (tid cap : Nat) (ct : ℚ)
    (load_cap : Nat) :
    ∀ (fuel : Nat) (s : LoadState), s.dl.length ≤ cap →
      ((loadLoopF env depFuel tid cap ct load_cap fuel s).1).dl.length ≤ cap := by
  intro fuel
  induction fuel with
  | zero => intro s hs; exact hs
  | succ fuel ih =>
    intro s hs
    simp only [loadLoopF]
    split
    · rename_i hcond
      split
      · exact hs
      · rename_i current rest heq
        split
        · rename_i s' heq2
          apply ih
          have hit := loadIter_dl_le_cap env depFuel tid cap ct load_cap current
            { s with manif := rest } hcond.1
          rw [heq2] at hit
          exact hit
        · rename_i s' e heq2
          have hit := loadIter_dl_le_cap env depFuel tid cap ct load_cap current
            { s with manif := rest } hcond.1
          rw [heq2] at hit
          exact hit
    · exact hs

lemma deliverLoopF_dl_length (g : LocationGraph) :
    ∀ (fuel : Nat) (t : Truck) (dests : List Nat) (st : PathState),
      ((deliverLoopF g fuel t dests st).1).delivery_list.length ≤ t.delivery_list.length := by
  intro fuel
  induction fuel with
  | zero => intro t dests st; exact le_rfl
  | succ fuel ih =>
    intro t dests st
    simp only [deliverLoopF]
    split
    · exact le_rfl
    · split
      · exact le_rfl
      · exact le_trans (ih _ _ _) (by simpa using List.length_filter_le _ _)

/-- A one-node graph (just the hub), for concrete instantiations. -/
def oneNodeGraph : LocationGraph := { n := 1, rows := fun _ _ => 0 }

/-- C6.  Capacity invariant: (a) every state of the loading loop with
    `len(delivery_list) ≤ capacity` steps to a state satisfying the
    same bound (each plain branch loads a single package only under
    the loop guard `len < capacity`, and the dependency branch loads
    the group only under its explicit
    `len(delivery_list) + len(group) <= capacity` check — also on the
    `ValueError`-aborted path); (b) hence a full `Truck.load` cycle
    keeps the count within capacity; (c) `deliver_packages` only ever
    removes packages, so the count never grows during delivery. -/
theorem capacity_never_exceeded (env : Nat → Pkg) (depFuel : Nat) (t : Truck)
    (manif : List Pkg) (load_cap : Nat) (g : LocationGraph) (st : PathState)
    (hdl : t.delivery_list.length ≤ t.capacity) :
    (∀ (fuel : Nat) (s : LoadState), s.dl.length ≤ t.capacity →
      ((loadLoopF env depFuel t.truck_id t.capacity (current_time t) load_cap fuel
          s).1).dl.length ≤ t.capacity) ∧
    (Truck.load env depFuel t manif load_cap).1.delivery_list.length ≤ t.capacity ∧
    ((deliver_packages g t st).1).delivery_list.length ≤ t.delivery_list.length ∧
    ((deliver_packages g t st).1).delivery_list.length ≤ t.capacity := by
  refine ⟨fun fuel s hs => loadLoopF_dl_le_cap _ _ _ _ _ _ fuel s hs, ?_, ?_, ?_⟩
  · have h0 := loadLoopF_dl_le_cap env depFuel t.truck_id t.capacity (current_time t)
      load_cap manif.length
      { dl := t.delivery_list, manif := manif, counter := 0, next_load := [] } hdl
    unfold Truck.load loadLoop
    dsimp only
    split
    · rename_i s heq
      rw [heq] at h0
      exact h0
    · rename_i s e heq
      rw [heq] at h0
      exact h0
  · simp only [deliver_packages]
    exact deliverLoopF_dl_length g _ t _ st
  · simp only [deliver_packages]
    exact le_trans (deliverLoopF_dl_length g _ t _ st) hdl

/-- Witness for `capacity_never_exceeded`: truck 1 (capacity 16) with
    an empty delivery list, loading the two-package manifest of the C4
    scenario, on a one-node graph. -/
theorem capacity_never_exceeded_witness :
    (truckOne.delivery_list.length ≤ truckOne.capacity) ∧
    ((∀ (fuel : Nat) (s : LoadState), s.dl.length ≤ truckOne.capacity →
      ((loadLoopF (fun _ => pkgT2a) 9 truckOne.truck_id truckOne.capacity
          (current_time truckOne) sysMaxsizeNat fuel s).1).dl.length ≤ truckOne.capacity) ∧
    (Truck.load (fun _ => pkgT2a) 9 truckOne [pkgT2a, pkgT2b]
        sysMaxsizeNat).1.delivery_list.length ≤ truckOne.capacity ∧
    ((deliver_packages oneNodeGraph truckOne initPS).1).delivery_list.length ≤
      truckOne.delivery_list.length ∧
    ((deliver_packages oneNodeGraph truckOne initPS).1).delivery_list.length ≤
      truckOne.capacity) :=
  ⟨by decide, capacity_never_exceeded (fun _ => pkgT2a) 9 truckOne [pkgT2a, pkgT2b]
    sysMaxsizeNat oneNodeGraph initPS (by decide)⟩

/-- C7.  Monotonic parcel clock.  The truck clock
    `dayStart + dispatchDelay + mileage/avgSpeed` (here measured in
    minutes after day start, so day start is 0) is nonnegative and
    non-decreasing in accumulated mileage; hence a package loaded at
    truck state `t` (`__load_pkg` stamps `load_time`) and delivered at
    a later state `t'` of the same truck (`deliver` stamps
    `delivery_time`; same speed and dispatch delay, mileage only
    grown) has `load_time ≤ delivery_time`, both at or after the depot
    day start. -/
theorem parcel_clock_monotone (t t' : Truck) (p : Pkg)
    (hspeed : 0 < t.avg_speed) (hm0 : 0 ≤ t.mileage) (hd0 : 0 ≤ t.dispatch_delay)
    (hspeed' : t'.avg_speed = t.avg_speed) (hdelay' : t'.dispatch_delay = t.dispatch_delay)
    (hmono : t.mileage ≤ t'.mileage) :
    (deliver_stamp t' (load_pkg_stamp t p)).load_time = some (current_time t) ∧
    (deliver_stamp t' (load_pkg_stamp t p)).delivery_time = some (current_time t') ∧
    0 ≤ current_time t ∧ current_time t ≤ current_time t' := by
  refine ⟨rfl, rfl, ?_, ?_⟩
  · unfold current_time
    have h1 : 0 ≤ t.mileage / t.avg_speed := div_nonneg hm0 (le_of_lt hspeed)
    have h2 := mul_nonneg h1 (by norm_num : (0 : ℚ) ≤ 60)
    linarith
  · unfold current_time
    rw [hspeed', hdelay']
    have h1 : t.mileage / t.avg_speed ≤ t'.mileage / t.avg_speed :=
      (div_le_div_iff_of_pos_right hspeed).mpr hmono
    have h2 := mul_le_mul_of_nonneg_right h1 (by norm_num : (0 : ℚ) ≤ 60)
    linarith

/-- Truck 1 after having driven 5 miles. -/
def truckOneMoved : Truck := { truckOne with mileage := 5 }

/-- Witness for `parcel_clock_monotone`: truck 1 loading `pkgOne` at
    the depot (mileage 0) and delivering it after 5 miles. -/
theorem parcel_clock_monotone_witness :
    ((0 : ℚ) < truckOne.avg_speed ∧ (0 : ℚ) ≤ truckOne.mileage ∧
      (0 : ℚ) ≤ truckOne.dispatch_delay ∧
      truckOneMoved.avg_speed = truckOne.avg_speed ∧
      truckOneMoved.dispatch_delay = truckOne.dispatch_delay ∧
      truckOne.mileage ≤ truckOneMoved.mileage) ∧
    ((deliver_stamp truckOneMoved (load_pkg_stamp truckOne pkgOne)).load_time =
        some (current_time truckOne) ∧
      (deliver_stamp truckOneMoved (load_pkg_stamp truckOne pkgOne)).delivery_time =
        some (current_time truckOneMoved) ∧
      0 ≤ current_time truckOne ∧ current_time truckOne ≤ current_time truckOneMoved) :=
  ⟨⟨by decide, by decide, by decide, rfl, rfl, by decide⟩,
    parcel_clock_monotone truckOne truckOneMoved pkgOne (by decide) (by decide) (by decide)
      rfl rfl (by decide)⟩

/-- C9.  Status classification: under the load-before-delivery
    invariant (a set delivery time implies a set, no-later load time),
    `Package.status` prints exactly the claimed classification: at the
    hub iff the load time is unset or the query time precedes it;
    delivered iff the delivery time is set and the query time is at or
    after it; en route otherwise (and the `TypeError` path and the
    silent fall-through are unreachable). -/
theorem status_classification_correct (p : Pkg) (q : ℚ)
    (hinv : ∀ dt, p.delivery_time = some dt →
      ∃ lt, p.load_time = some lt ∧ lt ≤ dt) :
    ∃ st, p.status q = .ok st ∧
      (st = .atHub ↔ p.load_time = none ∨ ∃ lt, p.load_time = some lt ∧ q < lt) ∧
      (st = .delivered ↔ ∃ dt, p.delivery_time = some dt ∧ dt ≤ q) ∧
      (st = .enRoute ↔
        ¬(p.load_time = none ∨ ∃ lt, p.load_time = some lt ∧ q < lt) ∧
        ¬∃ dt, p.delivery_time = some dt ∧ dt ≤ q) := by
  rcases hl : p.load_time with _ | lt
  · rcases hd : p.delivery_time with _ | dt
    · refine ⟨.atHub, ?_, ?_, ?_, ?_⟩ <;>
        simp [Pkg.status, hl, hd]
    · rcases hinv dt hd with ⟨lt, hlt, -⟩
      rw [hl] at hlt
      exact absurd hlt (by simp)
  · rcases hd : p.delivery_time with _ | dt
    · by_cases hq : q < lt
      · refine ⟨.atHub, ?_, ?_, ?_, ?_⟩ <;>
          simp [Pkg.status, hl, hd, hq]
      · refine ⟨.enRoute, ?_, ?_, ?_, ?_⟩ <;>
          simp [Pkg.status, hl, hd, hq, le_of_not_lt hq]
    · rcases hinv dt hd with ⟨lt', hlt', hle⟩
      rw [hl] at hlt'
      injection hlt' with hlt'
      subst hlt'
      by_cases hq : q < lt
      · have hqd : ¬dt ≤ q := fun hc => absurd (lt_of_lt_of_le hq (le_trans hle hc))
          (lt_irrefl q)
      -- q < lt ≤ dt, so not delivered
        refine ⟨.atHub, ?_, ?_, ?_, ?_⟩ <;>
          simp [Pkg.status, hl, hd, hq, hqd]
      · by_cases hqd : q ≥ dt
        · refine ⟨.delivered, ?_, ?_, ?_, ?_⟩ <;>
            simp [Pkg.status, hl, hd, hq, hqd]
        · refine ⟨.enRoute, ?_, ?_, ?_, ?_⟩ <;>
            simp [Pkg.status, hl, hd, hq, hqd, le_of_not_lt hq]

/-- A package loaded at minute 10 and delivered at minute 20. -/
def pkgStamped : Pkg :=
  { pkg_id := 7, special_notes := [], dependencies := []
    load_time := some 10, delivery_time := some 20 }

/-- Witness for `status_classification_correct`: querying `pkgStamped`
    at minute 15, between load and delivery. -/
theorem status_classification_correct_witness :
    (∀ dt, pkgStamped.delivery_time = some dt →
      ∃ lt, pkgStamped.load_time = some lt ∧ lt ≤ dt) ∧
    ∃ st, pkgStamped.status 15 = .ok st ∧
      (st = .atHub ↔ pkgStamped.load_time = none ∨
        ∃ lt, pkgStamped.load_time = some lt ∧ (15 : ℚ) < lt) ∧
      (st = .delivered ↔ ∃ dt, pkgStamped.delivery_time = some dt ∧ dt ≤ (15 : ℚ)) ∧
      (st = .enRoute ↔
        ¬(pkgStamped.load_time = none ∨
          ∃ lt, pkgStamped.load_time = some lt ∧ (15 : ℚ) < lt) ∧
        ¬∃ dt, pkgStamped.delivery_time = some dt ∧ dt ≤ (15 : ℚ)) := by
  have hinv : ∀ dt, pkgStamped.delivery_time = some dt →
      ∃ lt, pkgStamped.load_time = some lt ∧ lt ≤ dt := by
    intro dt hdt
    refine ⟨10, rfl, ?_⟩
    have : dt = 20 := by
      simpa [pkgStamped] using hdt.symm
    rw [this]
    norm_num
  exact ⟨hinv, status_classification_correct pkgStamped 15 hinv⟩

lemma deliverLoopF_fuel_stable (g : LocationGraph) :
    ∀ (fuel : Nat) (t : Truck) (dests : List Nat) (st : PathState),
      dests.length ≤ fuel →
      deliverLoopF g fuel t dests st = deliverLoopF g dests.length t dests st := by
  intro fuel
  induction fuel with
  | zero =>
    intro t dests st h
    have hnil : dests = [] := List.eq_nil_of_length_eq_zero (Nat.le_zero.mp h)
    subst hnil
    rfl
  | succ fuel ih =>
    intro t dests st h
    cases dests with
    | nil => rfl
    | cons d0 ds =>
      simp only [deliverLoopF, List.length_cons]
      generalize runAll g t.location (d0 :: ds) st = stR
      generalize hms : (d0 :: ds).mergeSort (fun a b => decide (stR.sp a ≤ stR.sp b)) = sorted
      have hlen : sorted.length = ds.length + 1 := by
        rw [← hms, List.length_mergeSort, List.length_cons]
      cases sorted with
      | nil => rfl
      | cons d rest =>
        have hrest : rest.length = ds.length := by
          simpa using hlen
        have hfuel : rest.length ≤ fuel := by
          simp only [List.length_cons] at h
          omega
        dsimp only
        rw [ih _ rest _ hfuel, hrest]

/-- C8.  Routing termination and homing: the `while destinations:`
    loop of `deliver_packages` pops exactly one destination per
    iteration, so the initial number of distinct destinations is
    sufficient fuel and any larger budget computes the same result
    (the loop terminates); and the function returns with the truck's
    location set to the hub `g[0]` (location id 0) and the final
    return-leg `shortest_known_path` added to its accumulated
    mileage. -/
theorem deliver_packages_terminates_at_depot (g : LocationGraph) (t : Truck)
    (st : PathState) :
    (∀ fuel, (collectDest t.delivery_list []).length ≤ fuel →
      deliverLoopF g fuel t (collectDest t.delivery_list []) st =
        deliverLoopF g (collectDest t.delivery_list []).length t
          (collectDest t.delivery_list []) st) ∧
    (deliver_packages g t st).1.location = 0 ∧
    (deliver_packages g t st).1.mileage =
      (deliverLoopF g (collectDest t.delivery_list []).length t
          (collectDest t.delivery_list []) st).1.mileage +
        (dijkstra_sp g
          (deliverLoopF g (collectDest t.delivery_list []).length t
            (collectDest t.delivery_list []) st).2
          (deliverLoopF g (collectDest t.delivery_list []).length t
            (collectDest t.delivery_list []) st).1.location 0).sp 0 :=
  ⟨fun fuel h => deliverLoopF_fuel_stable g fuel t _ st h, rfl, rfl⟩

/-- Witness for `deliver_packages_terminates_at_depot`: the empty
    truck on the one-node graph, with surplus fuel 5. -/
theorem deliver_packages_terminates_at_depot_witness :
    ((collectDest truckOne.delivery_list []).length ≤ 5 ∧
      deliverLoopF oneNodeGraph 5 truckOne (collectDest truckOne.delivery_list []) initPS =
        deliverLoopF oneNodeGraph (collectDest truckOne.delivery_list []).length truckOne
          (collectDest truckOne.delivery_list []) initPS) ∧
    (deliver_packages oneNodeGraph truckOne initPS).1.location = 0 :=
  ⟨⟨by decide,
    (deliver_packages_terminates_at_depot oneNodeGraph truckOne initPS).1 5 (by decide)⟩,
    (deliver_packages_terminates_at_depot oneNodeGraph truckOne initPS).2.1⟩

/-- The multiset of package ids of a list of packages (used to state
    that loading neither drops nor duplicates parcels; ids are the
    parcel identities — loading also stamps a load time, so comparing
    whole records would conflate identity with the timestamp side
    effect). -/
def idsOf (l : List Pkg) : Multiset Nat := (l.map Pkg.pkg_id : List Nat)

lemma idsOf_append (a b : List Pkg) : idsOf (a ++ b) = idsOf a + idsOf b := by
  simp [idsOf]

lemma idsOf_cons (p : Pkg) (l : List Pkg) : idsOf (p :: l) = p.pkg_id ::ₘ idsOf l := by
  simp [idsOf]

lemma idsOf_stamp_singleton (ct : ℚ) (p : Pkg) : idsOf [stamp ct p] = {p.pkg_id} := by
  simp [idsOf, stamp]

lemma restoreFront_eq (next m : List Pkg) : restoreFront next m = next.reverse ++ m := by
  induction next generalizing m with
  | nil => rfl
  | cons p next ih =>
    show restoreFront next (p :: m) = (p :: next).reverse ++ m
    rw [ih]
    simp

/-- The well-behaved fragment of the manifest grammar: no
    dependencies, and the note is either empty or one of the three
    recognized prefixes, with the data those branches read present
    (a digit after a truck restriction, an availability time for
    delayed/misaddressed packages). -/
def NoDepOk (p : Pkg) : Prop :=
  p.dependencies = [] ∧
  (p1_match p.special_notes = true → (lastCharTid p.special_notes).isSome = true) ∧
  ((p2_match p.special_notes = true ∨ p3_match p.special_notes = true) →
    p.time_available.isSome = true) ∧
  (p.special_notes = [] ∨ p1_match p.special_notes = true ∨
    p2_match p.special_notes = true ∨ p3_match p.special_notes = true)

lemma loadIter_no_deps (env : Nat → Pkg) (depFuel : Nat) (tid cap : Nat) (ct : ℚ)
    (load_cap : Nat) (current : Pkg) (s : LoadState) (h : NoDepOk current) :
    loadIter env depFuel tid cap ct load_cap current s =
      ({ s with dl := s.dl ++ [stamp ct current], counter := s.counter + 1 }, none) ∨
    loadIter env depFuel tid cap ct load_cap current s =
      ({ s with next_load := s.next_load ++ [current] }, none) := by
  obtain ⟨hdep, htid, hta, hpat⟩ := h
  unfold loadIter
  by_cases h0 : current.special_notes = []
  · rw [if_neg (by simp [h0, hdep])]
    exact Or.inl rfl
  · rw [if_pos (Or.inl h0)]
    by_cases h1 : p1_match current.special_notes = true
    · rcases Option.isSome_iff_exists.mp (htid h1) with ⟨tnote, htnote⟩
      simp only [h1, if_true, htnote]
      by_cases h2 : tid = tnote
      · simp only [h2, if_true]
        exact Or.inl trivial
      · simp only [if_neg h2]
        exact Or.inr trivial
    · rcases hpat with hp | hp | hp | hp
      · exact absurd hp h0
      · exact absurd hp h1
      all_goals
        rcases Option.isSome_iff_exists.mp (hta (by simp [hp])) with ⟨ta, hta'⟩
      all_goals
        simp only [Bool.not_eq_true] at h1
        simp only [h1, hp, if_false, if_true, Bool.false_eq_true, or_true, true_or, hta']
      all_goals
        by_cases h4 : ta ≤ ct
      · simp only [if_pos h4]; exact Or.inl trivial
      · simp only [if_neg h4]; exact Or.inr trivial
      · simp only [if_pos h4]; exact Or.inl trivial
      · simp only [if_neg h4]; exact Or.inr trivial

lemma multiset_add_shuffle (X D M S R c : Multiset Nat) (h : X + D + M = S + R) :
    X + (c + D) + M = S + (c + R) := by
  calc X + (c + D) + M = X + D + M + c := by abel
    _ = S + R + c := by rw [h]
    _ = S + (c + R) := by abel

lemma loadLoopF_no_deps (env : Nat → Pkg) (depFuel : Nat) (tid cap : Nat) (ct : ℚ)
    (load_cap : Nat) :
    ∀ (fuel : Nat) (s : LoadState), (∀ p ∈ s.manif, NoDepOk p) →
      (loadLoopF env depFuel tid cap ct load_cap fuel s).2 = none ∧
      ∃ deferred : List Pkg,
        (loadLoopF env depFuel tid cap ct load_cap fuel s).1.next_load =
          s.next_load ++ deferred ∧
        idsOf (loadLoopF env depFuel tid cap ct load_cap fuel s).1.dl + idsOf deferred +
            idsOf (loadLoopF env depFuel tid cap ct load_cap fuel s).1.manif =
          idsOf s.dl + idsOf s.manif := by
  intro fuel
  induction fuel with
  | zero =>
    intro s hs
    exact ⟨rfl, [], by simp [loadLoopF], by simp [loadLoopF, idsOf]⟩
  | succ fuel ih =>
    intro s hs
    simp only [loadLoopF]
    split
    · split
      · exact ⟨rfl, [], by simp, by simp [idsOf]⟩
      · rename_i current rest hmanif
        have hcur : NoDepOk current := hs current (by rw [hmanif]; exact List.mem_cons_self _ _)
        have htail : ∀ p ∈ rest, NoDepOk p :=
          fun p hp => hs p (by rw [hmanif]; exact List.mem_cons_of_mem _ hp)
        rcases loadIter_no_deps env depFuel tid cap ct load_cap current
            { s with manif := rest } hcur with hiter | hiter
        · rw [hiter]
          dsimp only
          have hIH := ih { dl := s.dl ++ [stamp ct current], manif := rest, counter := s.counter + 1, next_load := s.next_load } htail
          obtain ⟨herr, d2, hnext, hcons⟩ := hIH
          refine ⟨herr, d2, by simpa using hnext, ?_⟩
          rw [hcons]
          simp only [hmanif, idsOf_append, idsOf_cons, idsOf_stamp_singleton, stamp,
            ← Multiset.singleton_add]
          abel
        · rw [hiter]
          dsimp only
          have hIH := ih { dl := s.dl, manif := rest, counter := s.counter, next_load := s.next_load ++ [current] } htail
          obtain ⟨herr, d2, hnext, hcons⟩ := hIH
          refine ⟨herr, current :: d2, ?_, ?_⟩
          · rw [hnext]
            simp
          · dsimp only at hcons
            rw [hmanif, idsOf_cons current rest, idsOf_cons current d2,
              ← Multiset.singleton_add, ← Multiset.singleton_add]
            exact multiset_add_shuffle _ _ _ _ _ _ hcons
    · exact ⟨rfl, [], by simp, by simp [idsOf]⟩

/-- C4, amended.  For a load cycle over packages without dependencies
    whose notes are empty or match one of the recognized patterns
    (with the data those branches need present), every deferred
    package is placed back at the front of the pending manifest — in
    REVERSE of the order in which the deferred packages were
    encountered, because the restore loop prepends them one by one —
    and no package is dropped from or duplicated in the system: the
    ids of the loaded and pending packages after the cycle are, as a
    multiset, exactly the ids before it.  (Outside this fragment the
    source does lose and duplicate packages: an unrecognized nonempty
    note falls through every branch and is silently dropped, and a
    deferred dependency group is appended to the buffer while its
    members other than the trigger remain in the manifest — see
    `load_splits_dependency_group`.) -/
theorem load_restores_deferred_reversed_no_loss (env : Nat → Pkg) (depFuel : Nat)
    (t : Truck) (manif : List Pkg) (load_cap : Nat)
    (hmanif : ∀ p ∈ manif, NoDepOk p) :
    (Truck.load env depFuel t manif load_cap).2.2 = none ∧
    ∃ deferred leftover : List Pkg,
      (Truck.load env depFuel t manif load_cap).2.1 = deferred.reverse ++ leftover ∧
      idsOf (Truck.load env depFuel t manif load_cap).1.delivery_list +
          idsOf deferred + idsOf leftover =
        idsOf t.delivery_list + idsOf manif := by
  have hloop := loadLoopF_no_deps env depFuel t.truck_id t.capacity (current_time t)
    load_cap manif.length
    { dl := t.delivery_list, manif := manif, counter := 0, next_load := [] }
    (by simpa using hmanif)
  obtain ⟨herr, deferred, hnext, hcons⟩ := hloop
  unfold Truck.load loadLoop
  dsimp only
  rcases hres : loadLoopF env depFuel t.truck_id t.capacity (current_time t) load_cap
      manif.length
      { dl := t.delivery_list, manif := manif, counter := 0, next_load := [] }
    with ⟨s', err⟩
  rw [hres] at herr hnext hcons
  dsimp only at herr hnext hcons
  subst herr
  dsimp only
  refine ⟨rfl, deferred, s'.manif, ?_, ?_⟩
  · rw [restoreFront_eq, hnext]
    simp
  · simpa using hcons

/-- Witness for `load_restores_deferred_reversed_no_loss`: the C4
    scenario (truck 1, two truck-2-restricted packages). -/
theorem load_restores_deferred_reversed_no_loss_witness :
    (∀ p ∈ [pkgT2a, pkgT2b], NoDepOk p) ∧
    ((Truck.load (fun _ => pkgT2a) 9 truckOne [pkgT2a, pkgT2b] sysMaxsizeNat).2.2 = none ∧
    ∃ deferred leftover : List Pkg,
      (Truck.load (fun _ => pkgT2a) 9 truckOne [pkgT2a, pkgT2b] sysMaxsizeNat).2.1 =
        deferred.reverse ++ leftover ∧
      idsOf (Truck.load (fun _ => pkgT2a) 9 truckOne [pkgT2a, pkgT2b]
            sysMaxsizeNat).1.delivery_list +
          idsOf deferred + idsOf leftover =
        idsOf truckOne.delivery_list + idsOf [pkgT2a, pkgT2b]) := by
  have h : ∀ p ∈ [pkgT2a, pkgT2b], NoDepOk p := by
    intro p hp
    unfold NoDepOk
    fin_cases hp <;> exact ⟨rfl, by decide, by decide, by decide⟩
  exact ⟨h, load_restores_deferred_reversed_no_loss (fun _ => pkgT2a) 9 truckOne
    [pkgT2a, pkgT2b] sysMaxsizeNat h⟩

lemma discover_mem (env : Nat → Pkg) (f : Nat) (pkg : Pkg) (acc : List Pkg)
    (h : pkg ∈ acc) : discover_dependencies env f pkg acc = acc := by
  cases f with
  | zero => rfl
  | succ f => simp [discover_dependencies, h]

lemma discover_pair (env : Nat → Pkg) (A B : Pkg) (f : Nat)
    (hA : A.dependencies = [B.pkg_id]) (hB : B.dependencies = [A.pkg_id])
    (henvA : env A.pkg_id = A) (henvB : env B.pkg_id = B) (hAB : A ≠ B) (hf : 2 ≤ f) :
    discover_dependencies env f A [] = [A, B] := by
  obtain ⟨f', rfl⟩ : ∃ f', f = f' + 1 + 1 := ⟨f - 2, by omega⟩
  have h1 : discover_dependencies env (f' + 1 + 1) A [] =
      discover_dependencies env (f' + 1) (env B.pkg_id) [A] := by
    simp [discover_dependencies, hA]
  have hBA : ¬(B = A) := fun hc => hAB hc.symm
  have h2 : discover_dependencies env (f' + 1) B [A] =
      discover_dependencies env f' (env A.pkg_id) [A, B] := by
    simp [discover_dependencies, hB, hBA]
  rw [h1, henvB, h2, henvA, discover_mem env f' A [A, B] (by simp)]

/-- A package whose note matches none of the three patterns but whose
    dependency group (as resolved by `discover_dependencies`) fails
    the capacity / load-cap check is deferred together with its whole
    group. -/
lemma loadIter_group_defer (env : Nat → Pkg) (depFuel : Nat) (tid cap : Nat) (ct : ℚ)
    (load_cap : Nat) (current : Pkg) (s : LoadState)
    (h1 : p1_match current.special_notes = false)
    (h2 : p2_match current.special_notes = false)
    (h3 : p3_match current.special_notes = false)
    (hdep : current.dependencies ≠ [])
    (hnofit : ¬(s.dl.length + (discover_dependencies env depFuel current []).length ≤ cap ∧
      s.counter + (discover_dependencies env depFuel current []).length < load_cap)) :
    loadIter env depFuel tid cap ct load_cap current s =
      ({ s with next_load := s.next_load ++ discover_dependencies env depFuel current [] },
        none) := by
  unfold loadIter
  rw [if_pos (Or.inr hdep)]
  simp [h1, h2, h3, hdep, hnofit]

/-- C5, amended.  Atomicity does hold for dependency groups whose
    members carry no OTHER recognized annotation (no vehicle
    restriction, no delayed/wrong-address note): in particular, two
    mutually dependent packages offered to a vehicle of capacity < 2
    are both deferred — neither is ever loaded — though each of the
    two deferrals re-appends the whole group, so the group members end
    up duplicated at the front of the manifest.  (When a group member
    does carry a vehicle-restriction note, the branch ladder tests
    that note first and can load the member alone — the
    counterexample `load_splits_dependency_group`.) -/
theorem mutual_dependents_capacity_one_both_deferred
    (env : Nat → Pkg) (depFuel : Nat) (t : Truck) (A B : Pkg) (load_cap : Nat)
    (hcap : t.capacity < 2) (hdl : t.delivery_list = [])
    (hA : A.dependencies = [B.pkg_id]) (hB : B.dependencies = [A.pkg_id])
    (henvA : env A.pkg_id = A) (henvB : env B.pkg_id = B) (hne : A.pkg_id ≠ B.pkg_id)
    (hA1 : p1_match A.special_notes = false) (hA2 : p2_match A.special_notes = false)
    (hA3 : p3_match A.special_notes = false) (hB1 : p1_match B.special_notes = false)
    (hB2 : p2_match B.special_notes = false) (hB3 : p3_match B.special_notes = false)
    (hfuel : 2 ≤ depFuel) :
    (Truck.load env depFuel t [A, B] load_cap).1.delivery_list = [] ∧
    A ∈ (Truck.load env depFuel t [A, B] load_cap).2.1 ∧
    B ∈ (Truck.load env depFuel t [A, B] load_cap).2.1 ∧
    (Truck.load env depFuel t [A, B] load_cap).2.2 = none := by
  have hABne : A ≠ B := fun h => hne (congrArg Pkg.pkg_id h)
  have hgA : discover_dependencies env depFuel A [] = [A, B] :=
    discover_pair env A B depFuel hA hB henvA henvB hABne hfuel
  have hgB : discover_dependencies env depFuel B [] = [B, A] :=
    discover_pair env B A depFuel hB hA henvB henvA hABne.symm hfuel
  have hdepA : A.dependencies ≠ [] := by rw [hA]; simp
  have hdepB : B.dependencies ≠ [] := by rw [hB]; simp
  have hiterA := loadIter_group_defer env depFuel t.truck_id t.capacity (current_time t)
    load_cap A { dl := [], manif := [B], counter := 0, next_load := [] } hA1 hA2 hA3 hdepA
    (by rw [hgA]; dsimp only; intro hc; have h1 := hc.1; simp at h1; omega)
  rw [hgA] at hiterA
  have hiterB := loadIter_group_defer env depFuel t.truck_id t.capacity (current_time t)
    load_cap B { dl := [], manif := [], counter := 0, next_load := [A, B] } hB1 hB2 hB3 hdepB
    (by rw [hgB]; dsimp only; intro hc; have h1 := hc.1; simp at h1; omega)
  rw [hgB] at hiterB
  by_cases hrun : 0 < t.capacity ∧ 0 < load_cap
  · have step1 : loadLoopF env depFuel t.truck_id t.capacity (current_time t) load_cap 2
        { dl := [], manif := [A, B], counter := 0, next_load := [] } =
        loadLoopF env depFuel t.truck_id t.capacity (current_time t) load_cap 1
        { dl := [], manif := [B], counter := 0, next_load := [A, B] } := by
      simp only [loadLoopF]
      rw [if_pos (by simpa using hrun)]
      rw [hiterA]
      simp
    have step2 : loadLoopF env depFuel t.truck_id t.capacity (current_time t) load_cap 1
        { dl := [], manif := [B], counter := 0, next_load := [A, B] } =
        ({ dl := [], manif := [], counter := 0, next_load := [A, B, B, A] }, none) := by
      simp only [loadLoopF]
      rw [if_pos (by simpa using hrun)]
      rw [hiterB]
      simp
    have hrun2 : loadLoopF env depFuel t.truck_id t.capacity (current_time t) load_cap
        (({ dl := ([] : List Pkg), manif := [A, B], counter := 0,
            next_load := ([] : List Pkg) } : LoadState).manif.length)
        { dl := [], manif := [A, B], counter := 0, next_load := [] } =
        ({ dl := [], manif := [], counter := 0, next_load := [A, B, B, A] }, none) := by
      show loadLoopF env depFuel t.truck_id t.capacity (current_time t) load_cap 2
        { dl := [], manif := [A, B], counter := 0, next_load := [] } = _
      rw [step1, step2]
    unfold Truck.load loadLoop
    rw [hdl]
    rw [hrun2]
    dsimp only
    rw [restoreFront_eq]
    refine ⟨rfl, ?_, ?_, rfl⟩ <;> simp
  · have hrun2 : loadLoopF env depFuel t.truck_id t.capacity (current_time t) load_cap
        (({ dl := ([] : List Pkg), manif := [A, B], counter := 0,
            next_load := ([] : List Pkg) } : LoadState).manif.length)
        { dl := [], manif := [A, B], counter := 0, next_load := [] } =
        ({ dl := [], manif := [A, B], counter := 0, next_load := [] }, none) := by
      show loadLoopF env depFuel t.truck_id t.capacity (current_time t) load_cap 2
        { dl := [], manif := [A, B], counter := 0, next_load := [] } = _
      simp only [loadLoopF]
      rw [if_neg (by simpa using hrun)]
    unfold Truck.load loadLoop
    rw [hdl]
    rw [hrun2]
    dsimp only
    rw [restoreFront_eq]
    refine ⟨rfl, ?_, ?_, rfl⟩ <;> simp

/-- A package (id 2) that must ship with package 1 and carries no
    other annotation. -/
def pkgMdepB : Pkg :=
  { pkg_id := 2, special_notes := "Must be delivered with 1".toList, dependencies := [1] }

/-- The dependency environment for the mutually-dependent pair
    `pkgMdepA`/`pkgMdepB`. -/
def envABm : Nat → Pkg := fun i => if i = 1 then pkgMdepA else pkgMdepB

/-- Witness for `mutual_dependents_capacity_one_both_deferred`:
    packages 1 and 2, mutually annotated "Must be delivered with",
    offered to truck 1 of capacity 1. -/
theorem mutual_dependents_capacity_one_both_deferred_witness :
    (truckCap1.capacity < 2 ∧ truckCap1.delivery_list = [] ∧
      pkgMdepA.dependencies = [pkgMdepB.pkg_id] ∧
      pkgMdepB.dependencies = [pkgMdepA.pkg_id] ∧
      envABm pkgMdepA.pkg_id = pkgMdepA ∧ envABm pkgMdepB.pkg_id = pkgMdepB ∧
      pkgMdepA.pkg_id ≠ pkgMdepB.pkg_id ∧
      p1_match pkgMdepA.special_notes = false ∧ p2_match pkgMdepA.special_notes = false ∧
      p3_match pkgMdepA.special_notes = false ∧ p1_match pkgMdepB.special_notes = false ∧
      p2_match pkgMdepB.special_notes = false ∧ p3_match pkgMdepB.special_notes = false ∧
      2 ≤ 9) ∧
    ((Truck.load envABm 9 truckCap1 [pkgMdepA, pkgMdepB] sysMaxsizeNat).1.delivery_list
        = [] ∧
      pkgMdepA ∈ (Truck.load envABm 9 truckCap1 [pkgMdepA, pkgMdepB] sysMaxsizeNat).2.1 ∧
      pkgMdepB ∈ (Truck.load envABm 9 truckCap1 [pkgMdepA, pkgMdepB] sysMaxsizeNat).2.1 ∧
      (Truck.load envABm 9 truckCap1 [pkgMdepA, pkgMdepB] sysMaxsizeNat).2.2 = none) :=
  ⟨⟨by decide, rfl, by decide, by decide, by decide, by decide, by decide, by decide,
    by decide, by decide, by decide, by decide, by decide, by decide⟩,
    mutual_dependents_capacity_one_both_deferred envABm 9 truckCap1 pkgMdepA pkgMdepB
      sysMaxsizeNat (by decide) rfl (by decide) (by decide) (by decide) (by decide)
      (by decide) (by decide) (by decide) (by decide) (by decide) (by decide) (by decide)
      (by decide)⟩
